import Mathlib

/-!
Shallow embedding of the Numinix mastery and progress analytics engine
(`diagnosticService.ts` and `progressTrackingService.ts`), together with
theorems checking the specification's claims about it.

Conventions: TypeScript numbers that only ever hold integer counts are
embedded as `Nat`; numbers that hold ratios or percentages are embedded as
`Rat` (exact arithmetic in place of IEEE doubles); optional/possibly-absent
string fields are `Option String`; the persistence store for concept mastery
is a function from the (user, chapter, concept) key to an optional row.
Timestamp fields (`last_praticed_at` style wall-clock reads) are omitted:
they are external inputs that no claim constrains.
-/

/-! ## Diagnostic analysis (`diagnosticService.ts`, `analyzeDiagnosticResults`) -/

/-- One element of the `answers` argument of `analyzeDiagnosticResults`. -/
structure DiagnosticAnswer where
  questionId : String
  answer : String
  correct : Bool
deriving DecidableEq, Repr

/-- One element of the `questions` argument (the question bank metadata). -/
structure DiagnosticQuestion where
  id : String
  topic : String
  concept : String
  difficulty : String
deriving DecidableEq, Repr

/-- Entry of the `topicScores` accumulator object: topic ↦ (correct, total).
JavaScript object keys preserve insertion order, so the object is embedded as
an association list in insertion order. -/
abbrev TopicScore := String × ℕ × ℕ

/-- Record one outcome into the `topicScores` object: create the entry with
`{correct: 0, total: 0}` on first sight of the topic, then `total++` and
conditionally `correct++`. -/
def addTopicOutcome : List TopicScore → String → Bool → List TopicScore
  | [], t, c => [(t, (if c then 1 else 0), 1)]
  | e :: rest, t, c =>
    if e.1 = t then (e.1, e.2.1 + (if c then 1 else 0), e.2.2 + 1) :: rest
    else e :: addTopicOutcome rest t c

/-- The `answers.forEach((answer, index) => ...)` loop: the i-th answer is
paired with the i-th question (`questions[index]`); when the question is
`undefined` (index past the bank) the outcome is skipped, which is exactly
`List.zip`'s truncation. -/
def topicScores (answers : List DiagnosticAnswer)
    (questions : List DiagnosticQuestion) : List TopicScore :=
  (answers.zip questions).foldl
    (fun m p => addTopicOutcome m p.2.topic p.1.correct) []

/-- `(scores.correct / scores.total) * 100`. -/
def topicPercentage (c t : ℕ) : ℚ := ((c : ℚ) / (t : ℚ)) * 100

/-- Body of the `Object.entries(topicScores).forEach` classification loop:
`percentage >= 80` pushes to strengths, `percentage >= 50` is the silent
moderate branch, otherwise push to weaknesses; independently `percentage < 30`
pushes to gaps. The accumulator is (strengths, weaknesses, gaps). -/
def classifyStep (acc : List String × List String × List String)
    (e : TopicScore) : List String × List String × List String :=
  let percentage := topicPercentage e.2.1 e.2.2
  let acc1 :=
    if percentage ≥ 80 then (acc.1 ++ [e.1], acc.2.1, acc.2.2)
    else if percentage ≥ 50 then acc
    else (acc.1, acc.2.1 ++ [e.1], acc.2.2)
  if percentage < 30 then (acc1.1, acc1.2.1, acc1.2.2 ++ [e.1]) else acc1

/-- The classification pass over the accumulated topic scores. -/
def classifyTopics (m : List TopicScore) :
    List String × List String × List String :=
  m.foldl classifyStep ([], [], [])

/-- The deterministic part of `analyzeDiagnosticResults`: the
(strengths, weaknesses, gaps) triple of the returned `DiagnosticResult`.
(The `conceptScores` object is also built by the source but never read;
recommendations are handled separately below.) -/
def analyzeDiagnosticResults (answers : List DiagnosticAnswer)
    (questions : List DiagnosticQuestion) :
    List String × List String × List String :=
  classifyTopics (topicScores answers questions)

/-! ## Recommendation fallback (`diagnosticService.ts`, `generateRecommendations`) -/

/-- The fallback recommendation list built when the oracle call fails or its
output does not parse as a JSON array (lines 244–258 of the source). -/
def fallbackRecommendations (strengths weaknesses : List String)
    (score totalQuestions : ℕ) : List String :=
  let base := ["You scored " ++ toString score ++ "/" ++ toString totalQuestions
                 ++ "! 🎉 Every step forward is progress.",
               "Focus on daily practice - even 15 minutes makes a difference! 📚",
               "Don\x27t worry about mistakes - they\x27re stepping stones to success! 💪"]
  let base :=
    if strengths.length > 0 then
      base ++ ["You\x27re doing great with " ++ strengths.headD "" ++ "! 🌟 Keep it up!"]
    else base
  if weaknesses.length > 0 then
    base ++ ["Let\x27s work on " ++ weaknesses.headD "" ++ " together - you\x27ve got this! 🚀"]
  else base

/-- `generateRecommendations`, with the external oracle round-trip abstracted
at its interface: `some recs` models a successful fetch whose text parsed via
`JSON.parse` to an array (the `Array.isArray` guard), while `none` models any
failure on that path — a thrown fetch, a missing `candidates[0].content` text,
a `JSON.parse` exception, or a parse result that is not an array. In every
such case the source falls through to the fallback list; nothing is thrown. -/
def generateRecommendations (oracle : Option (List String))
    (strengths weaknesses _gaps : List String)
    (score totalQuestions : ℕ) : List String :=
  match oracle with
  | some recs => recs
  | none => fallbackRecommendations strengths weaknesses score totalQuestions

/-! ## Concept mastery (`progressTrackingService.ts`, `updateConceptMastery`) -/

/-- A `concept_mastery` row (the fields the modeled operations read or write;
the wall-clock `last_practiced_at` and the unused `difficulty_progression`
are omitted). -/
structure ConceptMastery where
  mastery_level : ℚ
  attempts_count : ℕ
  correct_attempts : ℕ
  time_to_master_minutes : ℕ
deriving DecidableEq, Repr

/-- The argument tuple of one `updateConceptMastery` call. -/
structure MasteryUpdate where
  userId : String
  chapterId : String
  concept : String
  isCorrect : Bool
  timeSpent : ℕ
deriving DecidableEq, Repr

/-- The row key: the `(user_id, chapter_id, concept)` equality filters of the
lookup query. -/
abbrev MasteryKey := String × String × String

def MasteryUpdate.key (u : MasteryUpdate) : MasteryKey :=
  (u.userId, u.chapterId, u.concept)

/-- The `concept_mastery` table, keyed by the uniqueness triple. -/
abbrev MasteryStore := MasteryKey → Option ConceptMastery

def emptyStore : MasteryStore := fun _ => none

/-- The "update existing record" branch: increment the counters, recompute
`mastery_level = Math.min(1.0, newCorrectAttempts / newAttemptsCount)`, and
add `Math.floor(timeSpent / 60)` to the cumulative minutes. -/
def stepRow (r : ConceptMastery) (isCorrect : Bool) (timeSpent : ℕ) :
    ConceptMastery :=
  let newAttemptsCount := r.attempts_count + 1
  let newCorrectAttempts := r.correct_attempts + (if isCorrect then 1 else 0)
  { mastery_level := min 1 ((newCorrectAttempts : ℚ) / (newAttemptsCount : ℚ)),
    attempts_count := newAttemptsCount,
    correct_attempts := newCorrectAttempts,
    time_to_master_minutes := r.time_to_master_minutes + timeSpent / 60 }

/-- The "create new record" branch. -/
def newRow (isCorrect : Bool) (timeSpent : ℕ) : ConceptMastery :=
  { mastery_level := if isCorrect then 1 else 0,
    attempts_count := 1,
    correct_attempts := if isCorrect then 1 else 0,
    time_to_master_minutes := timeSpent / 60 }

/-- One `updateConceptMastery` call: look up the row for the triple, update it
if present, insert a fresh one otherwise. Each call performs exactly one
storage write (one `update` or one `insert`). -/
def updateConceptMastery (s : MasteryStore) (u : MasteryUpdate) : MasteryStore :=
  fun k =>
    if k = u.key then
      some (match s u.key with
            | some r => stepRow r u.isCorrect u.timeSpent
            | none => newRow u.isCorrect u.timeSpent)
    else s k

/-- A sequence of `updateConceptMastery` calls, in order. -/
def applyUpdates (s : MasteryStore) (us : List MasteryUpdate) : MasteryStore :=
  us.foldl updateConceptMastery s

/-- Number of updates in a list that reported a correct answer. -/
def countCorrect (vs : List MasteryUpdate) : ℕ :=
  (vs.filter (·.isCorrect)).length

/-- Total minutes contributed by a list of updates: each adds
`floor(timeSpentSeconds / 60)`. -/
def totalMinutes (vs : List MasteryUpdate) : ℕ :=
  (vs.map (fun u => u.timeSpent / 60)).sum

/-- The row invariant the spec states for `concept_mastery`. -/
def RowInv (r : ConceptMastery) : Prop :=
  0 ≤ r.mastery_level ∧ r.mastery_level ≤ 1 ∧
    r.correct_attempts ≤ r.attempts_count

/-! ## Attempt recording (`progressTrackingService.ts`, `recordQuestionAttempt`) -/

/-- A question attempt (the fields `recordQuestionAttempt` reads; the purely
persisted payload fields are carried opaquely by the insert and omitted). -/
structure QuestionAttempt where
  user_id : String
  question_id : String
  chapter_id : Option String
  concept : Option String
  is_correct : Bool
  time_taken_seconds : ℕ
deriving DecidableEq, Repr

/-- JavaScript truthiness of an optional string field: `undefined`, `null`
and `""` are falsy. -/
def jsTruthy : Option String → Bool
  | none => false
  | some s => !(s == "")

/-- State touched by `recordQuestionAttempt`: the `question_attempts` table
(insertion-ordered) and the `concept_mastery` table. -/
structure RecState where
  attempts : List QuestionAttempt
  mastery : MasteryStore

/-- The `updateConceptMastery` argument built from an attempt (only reached
when both guards are truthy). -/
def attemptUpdate (a : QuestionAttempt) : MasteryUpdate :=
  { userId := a.user_id,
    chapterId := a.chapter_id.getD "",
    concept := a.concept.getD "",
    isCorrect := a.is_correct,
    timeSpent := a.time_taken_seconds }

/-- `recordQuestionAttempt`: insert the attempt, then — only when
`attempt.concept && attempt.chapter_id` is truthy — call
`updateConceptMastery` once. The second component counts the mastery
upserts performed by the call (each `updateConceptMastery` call is exactly
one storage upsert). -/
def recordQuestionAttempt (st : RecState) (a : QuestionAttempt) :
    RecState × ℕ :=
  let st1 : RecState := { st with attempts := st.attempts ++ [a] }
  if jsTruthy a.concept && jsTruthy a.chapter_id then
    ({ st1 with mastery := updateConceptMastery st1.mastery (attemptUpdate a) }, 1)
  else (st1, 0)

/-! ## Learning path (`progressTrackingService.ts`,
`generateLearningSequence` / `estimateCompletionTime`) -/

/-- A `ChapterDiagnostic` (the fields the planner reads). -/
structure ChapterDiagnostic where
  weaknesses : List String
  knowledge_gaps : List String
  prerequisite_concepts : List String
  score_percentage : ℚ
deriving Repr

/-- `generateLearningSequence`: pushes onto one array, modeled as appends. -/
def generateLearningSequence (d : ChapterDiagnostic) : List String :=
  let s0 : List String := []
  let s1 :=
    if d.knowledge_gaps.length > 0 then
      d.prerequisite_concepts.foldl
        (fun acc c => acc ++ ["Master: " ++ c])
        (s0 ++ ["Review Prerequisites"])
    else s0
  let s2 :=
    d.weaknesses.foldl
      (fun acc w => acc ++ ["Focus on: " ++ w, "Practice: " ++ w ++ " Problems"])
      s1
  s2 ++ ["Core Chapter Concepts", "Advanced Applications", "Chapter Assessment"]

/-- `estimateCompletionTime`: 7-day base, +2 per weakness, +3 per gap,
score bonus, `Math.min(baseDays, 21)`. -/
def estimateCompletionTime (d : ChapterDiagnostic) : ℕ :=
  let baseDays := 7
  let baseDays := baseDays + d.weaknesses.length * 2
  let baseDays := baseDays + d.knowledge_gaps.length * 3
  let baseDays :=
    if d.score_percentage < 30 then baseDays + 5
    else if d.score_percentage < 60 then baseDays + 3
    else baseDays
  min baseDays 21

/-- The completion-days formula exactly as the claim words it, for comparison
with `estimateCompletionTime`: `min(21, 7 + 2·W + 3·G + B)` with `B = 5` if
`score < 30`, `B = 3` if `30 ≤ score < 60`, `B = 0` otherwise. -/
def claimEstimatedDays (d : ChapterDiagnostic) : ℕ :=
  min 21 (7 + 2 * d.weaknesses.length + 3 * d.knowledge_gaps.length +
    (if d.score_percentage < 30 then 5
     else if 30 ≤ d.score_percentage ∧ d.score_percentage < 60 then 3
     else 0))

/-! ## Progress report aggregates (`progressTrackingService.ts`,
`generateProgressReport` / `calculateOverallProgress`) -/

/-- A question-attempt row as read by the report aggregation. -/
structure ReportAttempt where
  is_correct : Bool
deriving DecidableEq, Repr

/-- A study-session row as read by the report aggregation
(`duration_minutes` may be absent: the source guards with `|| 0`). -/
structure ReportSession where
  duration_minutes : Option ℕ
deriving DecidableEq, Repr

/-- `const totalAttempts = attempts?.length || 0`. -/
def totalAttempts (attempts : List ReportAttempt) : ℕ := attempts.length

/-- `const correctAttempts = attempts?.filter(a => a.is_correct).length || 0`. -/
def correctAttempts (attempts : List ReportAttempt) : ℕ :=
  (attempts.filter (·.is_correct)).length

/-- `totalAttempts > 0 ? (correctAttempts / totalAttempts) * 100 : 0`. -/
def accuracyPercentage (attempts : List ReportAttempt) : ℚ :=
  if totalAttempts attempts > 0 then
    ((correctAttempts attempts : ℚ) / (totalAttempts attempts : ℚ)) * 100
  else 0

/-- `sessions?.reduce((sum, s) => sum + (s.duration_minutes || 0), 0) || 0`. -/
def totalTimeSpent (sessions : List ReportSession) : ℕ :=
  sessions.foldl (fun sum s => sum + s.duration_minutes.getD 0) 0

/-- `calculateOverallProgress`: 0 on an empty mastery list, else the reduced
sum of mastery levels over the count, times 100. -/
def calculateOverallProgress (masteryData : List ConceptMastery) : ℚ :=
  if masteryData.length = 0 then 0
  else
    (masteryData.foldl (fun sum m => sum + m.mastery_level) 0 /
      (masteryData.length : ℚ)) * 100

/-! ## Helper lemmas -/

/-- Folding `acc ++ f x` over a list appends the concatenation of the images. -/
theorem listFoldlAppendBind {α β : Type} (f : α → List β) :
    ∀ (l : List α) (acc : List β),
      l.foldl (fun a x => a ++ f x) acc = acc ++ l.flatMap f := by
  intro l
  induction l with
  | nil => intro acc; simp
  | cons x t ih =>
    intro acc
    simp only [List.foldl_cons, ih, List.flatMap_cons, List.append_assoc]

/-- Folding `s + f x` over a list adds the sum of the images. -/
theorem listFoldlAddSum {α M : Type} [AddCommMonoid M] (f : α → M) :
    ∀ (l : List α) (a : M),
      l.foldl (fun s x => s + f x) a = a + (l.map f).sum := by
  intro l
  induction l with
  | nil => intro a; simp
  | cons x t ih => intro a; simp [ih, add_assoc]

/-- A bind of singletons is a map. -/
theorem listBindSingleton {α β : Type} (g : α → β) (l : List α) :
    l.flatMap (fun c => [g c]) = l.map g := by
  induction l with
  | nil => rfl
  | cons x t ih => simp [ih]

/-! ## C3: estimated completion days -/

/-- C3: for every diagnostic, the estimated completion days equal
`min(21, 7 + 2·W + 3·G + B)` with `B = 5` for `score < 30`, `B = 3` for
`30 ≤ score < 60`, `B = 0` otherwise; and for score in `[0,100]` the result
lies in `[7, 21]` inclusive. -/
theorem c3_estimated_days (d : ChapterDiagnostic)
    (h0 : 0 ≤ d.score_percentage) (h1 : d.score_percentage ≤ 100) :
    estimateCompletionTime d = claimEstimatedDays d ∧
    7 ≤ estimateCompletionTime d ∧ estimateCompletionTime d ≤ 21 := by
  unfold estimateCompletionTime claimEstimatedDays
  by_cases hc1 : d.score_percentage < 30
  · simp only [if_pos hc1]
    omega
  · by_cases hc2 : d.score_percentage < 60
    · have hand : 30 ≤ d.score_percentage ∧ d.score_percentage < 60 :=
        ⟨not_lt.mp hc1, hc2⟩
      simp only [if_neg hc1, if_pos hc2, if_pos hand]
      omega
    · simp only [if_neg hc1, if_neg hc2,
        if_neg (fun h : _ ∧ _ => hc2 h.2)]
      omega

/-- Witness for C3 at the spec's own example: 3 weaknesses, 2 gaps,
score 20 → `7 + 6 + 6 + 5 = 24`, clamped to 21. -/
theorem c3_estimated_days_witness :
    estimateCompletionTime ⟨["a", "b", "c"], ["d", "e"], [], 20⟩ =
      claimEstimatedDays ⟨["a", "b", "c"], ["d", "e"], [], 20⟩ ∧
    7 ≤ estimateCompletionTime ⟨["a", "b", "c"], ["d", "e"], [], 20⟩ ∧
    estimateCompletionTime ⟨["a", "b", "c"], ["d", "e"], [], 20⟩ ≤ 21 :=
  c3_estimated_days ⟨["a", "b", "c"], ["d", "e"], [], 20⟩
    (by norm_num) (by norm_num)

/-! ## C4: learning sequence -/

/-- C4: the remediation sequence is exactly the optional prerequisite block,
then the two entries per weakness in order, then the three fixed closing
entries, and nothing else. -/
theorem c4_learning_sequence (d : ChapterDiagnostic) :
    generateLearningSequence d =
      (if d.knowledge_gaps = [] then []
       else "Review Prerequisites" ::
         d.prerequisite_concepts.map (fun c => "Master: " ++ c)) ++
      d.weaknesses.flatMap
        (fun w => ["Focus on: " ++ w, "Practice: " ++ w ++ " Problems"]) ++
      ["Core Chapter Concepts", "Advanced Applications", "Chapter Assessment"] := by
  unfold generateLearningSequence
  rcases hg : d.knowledge_gaps with _ | ⟨g, gs⟩
  · simp [hg, listFoldlAppendBind]
  · rw [if_neg (by simp [hg])]
    simp only [hg, List.length_cons, Nat.zero_lt_succ, if_pos,
      gt_iff_lt, Nat.succ_pos]
    rw [listFoldlAppendBind, listFoldlAppendBind, listBindSingleton]
    simp

/-! ## C7: progress report aggregates -/

/-- C7: with zero attempts and zero sessions the aggregates are 0 (and total
functions cannot throw); in general accuracy is `100·correct/total` whenever
`total > 0` and time spent is the sum of session durations. -/
theorem c7_report_aggregates :
    accuracyPercentage [] = 0 ∧ totalTimeSpent [] = 0 ∧
    (∀ attempts : List ReportAttempt, 0 < totalAttempts attempts →
      accuracyPercentage attempts =
        100 * (correctAttempts attempts : ℚ) / (totalAttempts attempts : ℚ)) ∧
    (∀ sessions : List ReportSession,
      totalTimeSpent sessions =
        (sessions.map (fun s => s.duration_minutes.getD 0)).sum) := by
  refine ⟨rfl, rfl, ?_, ?_⟩
  · intro attempts h
    unfold accuracyPercentage
    rw [if_pos h]
    ring
  · intro sessions
    unfold totalTimeSpent
    rw [listFoldlAddSum]
    simp

/-- Witness for C7 on a two-attempt, two-session history. -/
theorem c7_report_aggregates_witness :
    0 < totalAttempts [⟨true⟩, ⟨false⟩] ∧
    accuracyPercentage [⟨true⟩, ⟨false⟩] =
      100 * (correctAttempts [⟨true⟩, ⟨false⟩] : ℚ) /
        (totalAttempts [⟨true⟩, ⟨false⟩] : ℚ) ∧
    totalTimeSpent [⟨some 25⟩, ⟨none⟩] =
      (([⟨some 25⟩, ⟨none⟩] : List ReportSession).map
        (fun s => s.duration_minutes.getD 0)).sum :=
  ⟨by decide, c7_report_aggregates.2.2.1 [⟨true⟩, ⟨false⟩] (by decide),
    c7_report_aggregates.2.2.2 [⟨some 25⟩, ⟨none⟩]⟩

/-! ## C8: overall progress -/

/-- C8: overall progress is the arithmetic mean of the mastery levels scaled
to percent, and 0 for an empty mastery list. -/
theorem c8_overall_progress (masteryData : List ConceptMastery) :
    calculateOverallProgress masteryData =
      if masteryData = [] then 0
      else ((masteryData.map (·.mastery_level)).sum /
        (masteryData.length : ℚ)) * 100 := by
  unfold calculateOverallProgress
  rcases masteryData with _ | ⟨m, ms⟩
  · simp
  · rw [if_neg (by simp), if_neg (by simp), listFoldlAddSum]
    simp

/-! ## C6: recommendation fallback on oracle failure -/

/-- C6: when the oracle call fails or its output does not parse as a JSON
array (`none`), the analyzer returns the deterministic fallback list: its
first element cites the literal score, it contains the generic
practice-cadence tip, and when a weakness exists it contains the element
naming the first weakness. Nothing is thrown (the embedding is total). -/
theorem c6_oracle_fallback (strengths weaknesses gaps : List String)
    (score totalQuestions : ℕ) :
    generateRecommendations none strengths weaknesses gaps score totalQuestions =
      fallbackRecommendations strengths weaknesses score totalQuestions ∧
    (fallbackRecommendations strengths weaknesses score totalQuestions).head? =
      some ("You scored " ++ toString score ++ "/" ++ toString totalQuestions
        ++ "! 🎉 Every step forward is progress.") ∧
    "Focus on daily practice - even 15 minutes makes a difference! 📚" ∈
      fallbackRecommendations strengths weaknesses score totalQuestions ∧
    (weaknesses ≠ [] →
      ("Let\x27s work on " ++ weaknesses.headD "" ++
          " together - you\x27ve got this! 🚀") ∈
        fallbackRecommendations strengths weaknesses score totalQuestions) := by
  refine ⟨rfl, ?_, ?_, ?_⟩
  · unfold fallbackRecommendations
    split_ifs <;> rfl
  · unfold fallbackRecommendations
    split_ifs <;> simp
  · intro hw
    unfold fallbackRecommendations
    rw [if_pos (List.length_pos.mpr hw)]
    exact List.mem_append_right _ (by simp)

/-- Witness for C6 with one weakness present. -/
theorem c6_oracle_fallback_witness :
    ("Let\x27s work on " ++ (["Algebra"] : List String).headD "" ++
        " together - you\x27ve got this! 🚀") ∈
      fallbackRecommendations [] ["Algebra"] 2 10 :=
  (c6_oracle_fallback [] ["Algebra"] [] 2 10).2.2.2 (by decide)

/-! ## Mastery update lemmas -/

/-- The effect of a run of "update existing record" branches on one row. -/
def foldSteps (r : ConceptMastery) (vs : List MasteryUpdate) : ConceptMastery :=
  vs.foldl (fun r u => stepRow r u.isCorrect u.timeSpent) r

/-- The row contents the claim predicts for the triple after the updates
`vs` on it: no row when `vs` is empty, else `attempts_count = N`,
`correct_attempts = C`, `mastery_level = min(1, C/N)` and the accumulated
floor-minutes. -/
def claimMasteryRow (vs : List MasteryUpdate) : Option ConceptMastery :=
  if vs.isEmpty then none
  else some
    { mastery_level := min 1 ((countCorrect vs : ℚ) / (vs.length : ℚ)),
      attempts_count := vs.length,
      correct_attempts := countCorrect vs,
      time_to_master_minutes := totalMinutes vs }

theorem countCorrect_cons (u : MasteryUpdate) (t : List MasteryUpdate) :
    countCorrect (u :: t) = (if u.isCorrect then 1 else 0) + countCorrect t := by
  unfold countCorrect
  cases hc : u.isCorrect <;> simp [List.filter_cons, hc] <;> omega

theorem totalMinutes_cons (u : MasteryUpdate) (t : List MasteryUpdate) :
    totalMinutes (u :: t) = u.timeSpent / 60 + totalMinutes t := by
  unfold totalMinutes
  simp

theorem foldSteps_spec :
    ∀ (vs : List MasteryUpdate) (r : ConceptMastery),
      (foldSteps r vs).attempts_count = r.attempts_count + vs.length ∧
      (foldSteps r vs).correct_attempts = r.correct_attempts + countCorrect vs ∧
      (foldSteps r vs).time_to_master_minutes =
        r.time_to_master_minutes + totalMinutes vs ∧
      (vs ≠ [] → (foldSteps r vs).mastery_level =
        min 1 (((r.correct_attempts + countCorrect vs : ℕ) : ℚ) /
          ((r.attempts_count + vs.length : ℕ) : ℚ))) := by
  intro vs
  induction vs with
  | nil =>
    intro r
    exact ⟨by simp [foldSteps], by simp [foldSteps, countCorrect],
      by simp [foldSteps, totalMinutes], fun h => absurd rfl h⟩
  | cons u t ih =>
    intro r
    have hfold : foldSteps r (u :: t) = foldSteps (stepRow r u.isCorrect u.timeSpent) t := rfl
    obtain ⟨h1, h2, h3, h4⟩ := ih (stepRow r u.isCorrect u.timeSpent)
    have hsa : (stepRow r u.isCorrect u.timeSpent).attempts_count =
        r.attempts_count + 1 := rfl
    have hsc : (stepRow r u.isCorrect u.timeSpent).correct_attempts =
        r.correct_attempts + (if u.isCorrect then 1 else 0) := rfl
    have hsm : (stepRow r u.isCorrect u.timeSpent).time_to_master_minutes =
        r.time_to_master_minutes + u.timeSpent / 60 := rfl
    refine ⟨?_, ?_, ?_, ?_⟩
    · rw [hfold, h1, hsa]
      simp
      omega
    · rw [hfold, h2, hsc, countCorrect_cons]
      omega
    · rw [hfold, h3, hsm, totalMinutes_cons]
      omega
    · intro _
      rw [hfold]
      rcases ht : t with _ | ⟨v, t2⟩
      · cases hc : u.isCorrect <;>
          simp [foldSteps, stepRow, countCorrect, List.filter_cons, hc]
      · rw [ht] at h4
        rw [h4 (by simp), hsa, hsc]
        have hn1 : r.correct_attempts + (if u.isCorrect then 1 else 0) +
            countCorrect (v :: t2) = r.correct_attempts + countCorrect (u :: v :: t2) := by
          rw [countCorrect_cons u]
          omega
        have hn2 : r.attempts_count + 1 + (v :: t2).length =
            r.attempts_count + (u :: v :: t2).length := by
          simp
          omega
        rw [hn1, hn2]

/-- Under `applyUpdates`, a key whose row exists accumulates exactly the
updates filtered to that key. -/
theorem applyUpdates_some (k : MasteryKey) :
    ∀ (us : List MasteryUpdate) (s : MasteryStore) (r : ConceptMastery),
      s k = some r →
      applyUpdates s us k =
        some (foldSteps r (us.filter (fun u => decide (u.key = k)))) := by
  intro us
  induction us with
  | nil =>
    intro s r h
    simpa [applyUpdates, foldSteps] using h
  | cons u t ih =>
    intro s r h
    have hcons : applyUpdates s (u :: t) = applyUpdates (updateConceptMastery s u) t := rfl
    by_cases hk : u.key = k
    · have hs : updateConceptMastery s u k =
          some (stepRow r u.isCorrect u.timeSpent) := by
        unfold updateConceptMastery
        rw [if_pos hk.symm, hk, h]
      rw [hcons, ih _ _ hs, List.filter_cons, if_pos (by simp [hk])]
      rfl
    · have hs : updateConceptMastery s u k = some r := by
        unfold updateConceptMastery
        rw [if_neg (fun hkk => hk hkk.symm)]
        exact h
      rw [hcons, ih _ _ hs, List.filter_cons, if_neg (by simp [hk])]

/-- Under `applyUpdates`, a key with no row ends up holding exactly the row
the claim predicts from the updates filtered to that key. -/
theorem ConceptMastery.eq_of_fields {a b : ConceptMastery}
    (h1 : a.mastery_level = b.mastery_level)
    (h2 : a.attempts_count = b.attempts_count)
    (h3 : a.correct_attempts = b.correct_attempts)
    (h4 : a.time_to_master_minutes = b.time_to_master_minutes) : a = b := by
  cases a
  cases b
  simp_all

/-- The freshly created row equals a step from the all-zero row. -/
theorem newRow_eq_stepRow (c : Bool) (t : ℕ) :
    newRow c t = stepRow ⟨0, 0, 0, 0⟩ c t := by
  cases c <;> simp [newRow, stepRow] <;> norm_num

/-- A create followed by a run of updates realizes the claim's row formula. -/
theorem foldSteps_newRow (u : MasteryUpdate) (vs : List MasteryUpdate) :
    some (foldSteps (newRow u.isCorrect u.timeSpent) vs) =
      claimMasteryRow (u :: vs) := by
  have hz : foldSteps (newRow u.isCorrect u.timeSpent) vs =
      foldSteps ⟨0, 0, 0, 0⟩ (u :: vs) := by
    rw [newRow_eq_stepRow]
    rfl
  obtain ⟨h1, h2, h3, h4⟩ := foldSteps_spec (u :: vs) ⟨0, 0, 0, 0⟩
  rw [claimMasteryRow, if_neg (by simp), hz]
  congr 1
  apply ConceptMastery.eq_of_fields
  · rw [h4 (by simp)]
    simp
  · rw [h1]
    simp
  · rw [h2]
    simp
  · rw [h3]
    simp

theorem applyUpdates_none (k : MasteryKey) :
    ∀ (us : List MasteryUpdate) (s : MasteryStore),
      s k = none →
      applyUpdates s us k =
        claimMasteryRow (us.filter (fun u => decide (u.key = k))) := by
  intro us
  induction us with
  | nil =>
    intro s h
    simpa [applyUpdates, claimMasteryRow] using h
  | cons u t ih =>
    intro s h
    have hcons : applyUpdates s (u :: t) = applyUpdates (updateConceptMastery s u) t := rfl
    by_cases hk : u.key = k
    · have hs : updateConceptMastery s u k =
          some (newRow u.isCorrect u.timeSpent) := by
        unfold updateConceptMastery
        rw [if_pos hk.symm, hk, h]
      rw [hcons, applyUpdates_some k t _ _ hs, List.filter_cons,
        if_pos (by simp [hk])]
      exact foldSteps_newRow u (t.filter (fun u => decide (u.key = k)))
    · have hs : updateConceptMastery s u k = none := by
        unfold updateConceptMastery
        rw [if_neg (fun hkk => hk hkk.symm)]
        exact h
      rw [hcons, ih _ hs, List.filter_cons, if_neg (by simp [hk])]

/-! ## C2: mastery counters over any update sequence -/

/-- C2: starting from no record for the triple `k`, after any sequence of
updates — arbitrarily interleaved with updates on other triples — the stored
row for `k` accumulates exactly the updates on `k`: `attempts_count = N`,
`correct_attempts = C`, `mastery_level = min(1, C/N)`, and the sum of
`floor(timeSpentSeconds/60)` as cumulative minutes (no row when `N = 0`;
`N = 1` is the creation case, with mastery 1.0 or 0.0 by correctness). -/
theorem c2_mastery_counters (s0 : MasteryStore) (k : MasteryKey)
    (h0 : s0 k = none) (us : List MasteryUpdate) :
    applyUpdates s0 us k =
      claimMasteryRow (us.filter (fun u => decide (u.key = k))) :=
  applyUpdates_none k us s0 h0

/-- Witness for C2: three updates, two on the tracked triple (one correct,
one wrong, 90 s and 150 s) and one interleaved on another concept. -/
theorem c2_mastery_counters_witness :
    applyUpdates emptyStore
        [⟨"u", "ch1", "Fractions", true, 90⟩,
         ⟨"u", "ch1", "Decimals", true, 40⟩,
         ⟨"u", "ch1", "Fractions", false, 150⟩] ("u", "ch1", "Fractions") =
      claimMasteryRow
        (([⟨"u", "ch1", "Fractions", true, 90⟩,
           ⟨"u", "ch1", "Decimals", true, 40⟩,
           ⟨"u", "ch1", "Fractions", false, 150⟩] : List MasteryUpdate).filter
          (fun u => decide (u.key = ("u", "ch1", "Fractions")))) :=
  c2_mastery_counters emptyStore ("u", "ch1", "Fractions") rfl
    [⟨"u", "ch1", "Fractions", true, 90⟩,
     ⟨"u", "ch1", "Decimals", true, 40⟩,
     ⟨"u", "ch1", "Fractions", false, 150⟩]

/-! ## C9: mastery row invariant -/

/-- Any store satisfying the row invariant everywhere still satisfies it
after one `updateConceptMastery` call. -/
theorem rowInv_preserved (s : MasteryStore) (u : MasteryUpdate)
    (hs : ∀ k r, s k = some r → RowInv r) :
    ∀ k r, updateConceptMastery s u k = some r → RowInv r := by
  intro k r hkr
  unfold updateConceptMastery at hkr
  by_cases hk : k = u.key
  · rw [if_pos hk] at hkr
    rcases hsu : s u.key with _ | r0
    · rw [hsu] at hkr
      injection hkr with hr
      subst hr
      unfold RowInv newRow
      cases u.isCorrect <;> norm_num
    · rw [hsu] at hkr
      injection hkr with hr
      subst hr
      obtain ⟨-, -, hle⟩ := hs u.key r0 hsu
      refine ⟨?_, ?_, ?_⟩
      · exact le_min (by norm_num) (div_nonneg (Nat.cast_nonneg _) (Nat.cast_nonneg _))
      · exact min_le_left _ _
      · show r0.correct_attempts + (if u.isCorrect then 1 else 0) ≤
          r0.attempts_count + 1
        cases u.isCorrect <;> simp <;> omega
  · rw [if_neg hk] at hkr
    exact hs k r hkr

/-- The invariant holds of every row in the store reached from the empty
store by any update sequence. -/
theorem storeInv_applyUpdates :
    ∀ (us : List MasteryUpdate) (s : MasteryStore),
      (∀ k r, s k = some r → RowInv r) →
      ∀ k r, applyUpdates s us k = some r → RowInv r := by
  intro us
  induction us with
  | nil => intro s hs; exact hs
  | cons u t ih =>
    intro s hs
    exact ih (updateConceptMastery s u) (rowInv_preserved s u hs)

/-- C9: after every reachable sequence of mastery updates, every stored row
has `mastery_level ∈ [0,1]` and `correct_attempts ≤ attempts_count`. -/
theorem c9_mastery_invariant (us : List MasteryUpdate) (k : MasteryKey)
    (r : ConceptMastery) (h : applyUpdates emptyStore us k = some r) :
    RowInv r :=
  storeInv_applyUpdates us emptyStore
    (fun _ _ h0 => absurd h0 (by simp [emptyStore])) k r h

/-- Witness for C9: one correct 30-second update creates the row
`⟨1, 1, 1, 0⟩`, which satisfies the invariant. -/
theorem c9_mastery_invariant_witness : RowInv ⟨1, 1, 1, 0⟩ :=
  c9_mastery_invariant [⟨"u", "ch", "c", true, 30⟩] ("u", "ch", "c")
    ⟨1, 1, 1, 0⟩ (by decide)

/-! ## C5: attempt recording and the mastery trigger -/

/-- The amended C5: a recorded attempt triggers exactly one mastery upsert
precisely when both its concept and its chapter id are truthy (non-absent
and non-empty); otherwise the attempt is recorded and concept mastery is
left untouched. -/
theorem c5_mastery_trigger (st : RecState) (a : QuestionAttempt) :
    ((jsTruthy a.concept && jsTruthy a.chapter_id) = true →
      (recordQuestionAttempt st a).2 = 1 ∧
      (recordQuestionAttempt st a).1.mastery =
        updateConceptMastery st.mastery (attemptUpdate a)) ∧
    ((jsTruthy a.concept && jsTruthy a.chapter_id) = false →
      (recordQuestionAttempt st a).2 = 0 ∧
      (recordQuestionAttempt st a).1.mastery = st.mastery) := by
  unfold recordQuestionAttempt
  constructor
  · intro h
    rw [if_pos h]
    exact ⟨rfl, rfl⟩
  · intro h
    rw [if_neg (by simp [h])]
    exact ⟨rfl, rfl⟩

/-- Counterexample to C5 as stated: an attempt that carries a concept but no
chapter id is recorded successfully yet performs zero mastery upserts. -/
theorem c5_counterexample :
    jsTruthy (some "Addition") = true ∧
    (recordQuestionAttempt ⟨[], emptyStore⟩
      ⟨"u1", "q1", none, some "Addition", true, 45⟩).2 = 0 ∧
    (recordQuestionAttempt ⟨[], emptyStore⟩
      ⟨"u1", "q1", none, some "Addition", true, 45⟩).1.attempts =
      [⟨"u1", "q1", none, some "Addition", true, 45⟩] :=
  ⟨rfl, rfl, rfl⟩

/-- Witness for the amended C5 on an attempt carrying both identifiers. -/
theorem c5_mastery_trigger_witness :
    (recordQuestionAttempt ⟨[], emptyStore⟩
      ⟨"u1", "q1", some "ch1", some "Addition", true, 45⟩).2 = 1 ∧
    (recordQuestionAttempt ⟨[], emptyStore⟩
      ⟨"u1", "q1", some "ch1", some "Addition", true, 45⟩).1.mastery =
      updateConceptMastery emptyStore
        (attemptUpdate ⟨"u1", "q1", some "ch1", some "Addition", true, 45⟩) :=
  (c5_mastery_trigger ⟨[], emptyStore⟩
    ⟨"u1", "q1", some "ch1", some "Addition", true, 45⟩).1 (by decide)

/-! ## Classification lemmas -/

theorem classify_go (m : List TopicScore) :
    ∀ s w g : List String,
      m.foldl classifyStep (s, w, g) =
        (s ++ (m.filter
          (fun e => decide (topicPercentage e.2.1 e.2.2 ≥ 80))).map (·.1),
         w ++ (m.filter
          (fun e => decide (topicPercentage e.2.1 e.2.2 < 50))).map (·.1),
         g ++ (m.filter
          (fun e => decide (topicPercentage e.2.1 e.2.2 < 30))).map (·.1)) := by
  induction m with
  | nil => intro s w g; simp
  | cons e t ih =>
    intro s w g
    rw [List.foldl_cons]
    by_cases h80 : topicPercentage e.2.1 e.2.2 ≥ 80
    · have h50 : ¬ topicPercentage e.2.1 e.2.2 < 50 := by linarith
      have h30 : ¬ topicPercentage e.2.1 e.2.2 < 30 := by linarith
      have hstep : classifyStep (s, w, g) e = (s ++ [e.1], w, g) := by
        simp only [classifyStep]
        rw [if_pos h80, if_neg h30]
      rw [hstep, ih]
      simp [List.filter_cons, h80, h50, h30]
    · by_cases h50 : topicPercentage e.2.1 e.2.2 ≥ 50
      · have h30 : ¬ topicPercentage e.2.1 e.2.2 < 30 := by linarith
        have hlt50 : ¬ topicPercentage e.2.1 e.2.2 < 50 := not_lt.mpr h50
        have hstep : classifyStep (s, w, g) e = (s, w, g) := by
          simp only [classifyStep]
          rw [if_neg h80, if_pos h50, if_neg h30]
        rw [hstep, ih]
        simp [List.filter_cons, h80, hlt50, h30]
      · have hlt50 : topicPercentage e.2.1 e.2.2 < 50 := not_le.mp h50
        by_cases h30 : topicPercentage e.2.1 e.2.2 < 30
        · have hstep : classifyStep (s, w, g) e = (s, w ++ [e.1], g ++ [e.1]) := by
            simp only [classifyStep]
            rw [if_neg h80, if_neg h50, if_pos h30]
          rw [hstep, ih]
          simp [List.filter_cons, h80, hlt50, h30]
        · have hstep : classifyStep (s, w, g) e = (s, w ++ [e.1], g) := by
            simp only [classifyStep]
            rw [if_neg h80, if_neg h50, if_neg h30]
          rw [hstep, ih]
          simp [List.filter_cons, h80, hlt50, h30]

/-! ## C1: diagnostic classification thresholds -/

/-- Counterexample to C1 as stated: with one topic "T" at 2 questions and 1
correct answer, the accuracy is 50% — below 60% and not a strength — yet the
code classifies it neither as a strength nor as a weakness (the `>= 50`
moderate branch), so the claimed 60% weakness threshold is false. -/
theorem c1_counterexample :
    topicScores [⟨"q1", "x", true⟩, ⟨"q2", "y", false⟩]
        [⟨"q1", "T", "c1", "easy"⟩, ⟨"q2", "T", "c2", "easy"⟩] = [("T", 1, 2)] ∧
    topicPercentage 1 2 = 50 ∧
    topicPercentage 1 2 < 60 ∧
    ¬ topicPercentage 1 2 ≥ 80 ∧
    "T" ∉ (analyzeDiagnosticResults [⟨"q1", "x", true⟩, ⟨"q2", "y", false⟩]
        [⟨"q1", "T", "c1", "easy"⟩, ⟨"q2", "T", "c2", "easy"⟩]).1 ∧
    (analyzeDiagnosticResults [⟨"q1", "x", true⟩, ⟨"q2", "y", false⟩]
        [⟨"q1", "T", "c1", "easy"⟩, ⟨"q2", "T", "c2", "easy"⟩]).2.1 = [] := by
  have hts : topicScores [⟨"q1", "x", true⟩, ⟨"q2", "y", false⟩]
      [⟨"q1", "T", "c1", "easy"⟩, ⟨"q2", "T", "c2", "easy"⟩] = [("T", 1, 2)] := by
    decide
  have hres : analyzeDiagnosticResults [⟨"q1", "x", true⟩, ⟨"q2", "y", false⟩]
      [⟨"q1", "T", "c1", "easy"⟩, ⟨"q2", "T", "c2", "easy"⟩] = ([], [], []) := by
    unfold analyzeDiagnosticResults classifyTopics
    rw [hts, classify_go]
    norm_num [List.filter_cons, topicPercentage]
  refine ⟨hts, ?_, ?_, ?_, ?_, ?_⟩
  · unfold topicPercentage
    norm_num
  · unfold topicPercentage
    norm_num
  · unfold topicPercentage
    norm_num
  · rw [hres]
    simp
  · rw [hres]

/-- The amended C1: the three output lists are exactly the topics whose
accuracy is `≥ 80%` (strengths), `< 50%` (weaknesses) and `< 30%` (gaps)
respectively, in topic first-appearance order; every gap topic is also a
weakness. -/
theorem c1_amended_classification (answers : List DiagnosticAnswer)
    (questions : List DiagnosticQuestion) :
    analyzeDiagnosticResults answers questions =
      (((topicScores answers questions).filter
          (fun e => decide (topicPercentage e.2.1 e.2.2 ≥ 80))).map (·.1),
       ((topicScores answers questions).filter
          (fun e => decide (topicPercentage e.2.1 e.2.2 < 50))).map (·.1),
       ((topicScores answers questions).filter
          (fun e => decide (topicPercentage e.2.1 e.2.2 < 30))).map (·.1)) ∧
    (∀ t, t ∈ (analyzeDiagnosticResults answers questions).2.2 →
      t ∈ (analyzeDiagnosticResults answers questions).2.1) := by
  have hmain : analyzeDiagnosticResults answers questions =
      (((topicScores answers questions).filter
          (fun e => decide (topicPercentage e.2.1 e.2.2 ≥ 80))).map (·.1),
       ((topicScores answers questions).filter
          (fun e => decide (topicPercentage e.2.1 e.2.2 < 50))).map (·.1),
       ((topicScores answers questions).filter
          (fun e => decide (topicPercentage e.2.1 e.2.2 < 30))).map (·.1)) := by
    unfold analyzeDiagnosticResults classifyTopics
    rw [classify_go]
    simp
  refine ⟨hmain, ?_⟩
  intro t ht
  rw [hmain] at ht ⊢
  simp only [List.mem_map, List.mem_filter, decide_eq_true_eq] at ht ⊢
  obtain ⟨e, ⟨hem, h30⟩, rfl⟩ := ht
  exact ⟨e, ⟨hem, by linarith⟩, rfl⟩

/-- Witness for the amended C1: a topic with 0/1 correct is a gap, hence
also a weakness. -/
theorem c1_amended_classification_witness :
    "G" ∈ (analyzeDiagnosticResults [⟨"q1", "x", false⟩]
      [⟨"q1", "G", "c", "easy"⟩]).2.1 :=
  (c1_amended_classification [⟨"q1", "x", false⟩]
    [⟨"q1", "G", "c", "easy"⟩]).2 "G" (by
      unfold analyzeDiagnosticResults classifyTopics
      rw [show topicScores [⟨"q1", "x", false⟩] [⟨"q1", "G", "c", "easy"⟩] =
        [("G", 0, 1)] from by decide, classify_go]
      norm_num [List.filter_cons, topicPercentage])

/-! ## C10: positional matching, answer ids never read -/

theorem topicScores_correct_only :
    ∀ (qs : List DiagnosticQuestion) (as1 as2 : List DiagnosticAnswer)
      (m : List TopicScore),
      as1.map (·.correct) = as2.map (·.correct) →
      (as1.zip qs).foldl (fun m p => addTopicOutcome m p.2.topic p.1.correct) m =
        (as2.zip qs).foldl (fun m p => addTopicOutcome m p.2.topic p.1.correct) m := by
  intro qs
  induction qs with
  | nil => intro as1 as2 m _; simp
  | cons q qt ih =>
    intro as1 as2 m h
    rcases as1 with _ | ⟨a1, t1⟩
    · rcases as2 with _ | ⟨a2, t2⟩
      · rfl
      · simp at h
    · rcases as2 with _ | ⟨a2, t2⟩
      · simp at h
      · simp only [List.map_cons, List.cons.injEq] at h
        obtain ⟨hc, ht⟩ := h
        rw [List.zip_cons_cons, List.zip_cons_cons, List.foldl_cons,
          List.foldl_cons, hc]
        exact ih t1 t2 _ ht

/-- C10: the analyzer pairs the i-th answer with the i-th question and never
reads the answers' `questionId` fields — two answer lists that agree except
on `questionId` classify identically — and (concretely) reordering the
question bank relative to the answer list can change the classification. -/
theorem c10_positional_matching :
    (∀ (as1 as2 : List DiagnosticAnswer) (qs : List DiagnosticQuestion),
      as1.map (fun a => (a.answer, a.correct)) =
        as2.map (fun a => (a.answer, a.correct)) →
      analyzeDiagnosticResults as1 qs = analyzeDiagnosticResults as2 qs) ∧
    analyzeDiagnosticResults [⟨"q1", "x", true⟩, ⟨"q2", "y", false⟩]
        [⟨"q1", "A", "c", "easy"⟩, ⟨"q2", "B", "c", "easy"⟩] ≠
      analyzeDiagnosticResults [⟨"q1", "x", true⟩, ⟨"q2", "y", false⟩]
        [⟨"q2", "B", "c", "easy"⟩, ⟨"q1", "A", "c", "easy"⟩] := by
  constructor
  · intro as1 as2 qs h
    have hc : as1.map (·.correct) = as2.map (·.correct) := by
      have h2 := congrArg (List.map Prod.snd) h
      simpa [List.map_map, Function.comp_def] using h2
    unfold analyzeDiagnosticResults topicScores
    rw [topicScores_correct_only qs as1 as2 [] hc]
  · have h1 : analyzeDiagnosticResults [⟨"q1", "x", true⟩, ⟨"q2", "y", false⟩]
        [⟨"q1", "A", "c", "easy"⟩, ⟨"q2", "B", "c", "easy"⟩] =
        (["A"], ["B"], ["B"]) := by
      unfold analyzeDiagnosticResults classifyTopics
      rw [show topicScores [⟨"q1", "x", true⟩, ⟨"q2", "y", false⟩]
        [⟨"q1", "A", "c", "easy"⟩, ⟨"q2", "B", "c", "easy"⟩] =
        [("A", 1, 1), ("B", 0, 1)] from by decide, classify_go]
      norm_num [List.filter_cons, topicPercentage]
    have h2 : analyzeDiagnosticResults [⟨"q1", "x", true⟩, ⟨"q2", "y", false⟩]
        [⟨"q2", "B", "c", "easy"⟩, ⟨"q1", "A", "c", "easy"⟩] =
        (["B"], ["A"], ["A"]) := by
      unfold analyzeDiagnosticResults classifyTopics
      rw [show topicScores [⟨"q1", "x", true⟩, ⟨"q2", "y", false⟩]
        [⟨"q2", "B", "c", "easy"⟩, ⟨"q1", "A", "c", "easy"⟩] =
        [("B", 1, 1), ("A", 0, 1)] from by decide, classify_go]
      norm_num [List.filter_cons, topicPercentage]
    rw [h1, h2]
    decide

/-- Witness for C10: two runs whose answers differ only in `questionId`
classify identically. -/
theorem c10_positional_matching_witness :
    analyzeDiagnosticResults [⟨"idA", "x", true⟩]
        [⟨"q", "A", "c", "easy"⟩] =
      analyzeDiagnosticResults [⟨"idB", "x", true⟩]
        [⟨"q", "A", "c", "easy"⟩] :=
  c10_positional_matching.1 [⟨"idA", "x", true⟩] [⟨"idB", "x", true⟩]
    [⟨"q", "A", "c", "easy"⟩] rfl
